import Mathlib

/-!
Shallow embedding of the brightsky ingestion core (`brightsky/parsers.py`,
`brightsky/tasks.py`, `brightsky/worker.py`) and proofs about it.

Numeric measurement values are modelled as rationals (`ℚ`); the pressure
approximation, which uses a non-integer floating-point power, is modelled over
the reals (`ℝ`).  Python `None` becomes `Option.none`; Python truthiness of a
numeric-or-None value is made explicit.  Fallible code returns `Except`.
-/

namespace Brightsky

/-- Python truthiness of an optional numeric value: `None` and `0` are falsy. -/
def pyTruthy (v : Option ℚ) : Bool :=
  match v with
  | none => false
  | some q => decide (q ≠ 0)

/-! ### Station location history (`ObservationsParser.parse_lat_lon_history` /
`_station_params`) -/

/-- One row of the geography metadata file: latitude, longitude, station
height and station name valid from some effective date. -/
structure StationInfo where
  lat : ℚ
  lon : ℚ
  height : ℚ
  name : String
deriving DecidableEq, Repr

/-- The loop body of `ObservationsParser._station_params`: walk the history in
order, remember the last entry whose effective date is not in the future, stop
at the first entry with `date > timestamp`.  Dates and timestamps are modelled
as natural numbers. -/
def stationParamsGo (acc : Option StationInfo) (timestamp : Nat) :
    List (Nat × StationInfo) → Option StationInfo
  | [] => acc
  | (d, info) :: rest =>
    if timestamp < d then acc else stationParamsGo (some info) timestamp rest

/-- `ObservationsParser._station_params`: resolve the station location valid at
`timestamp` from the effective-date-ordered history (`none` = unresolved,
where the Python caller would fail unpacking `None`). -/
def stationParams (timestamp : Nat) (hist : List (Nat × StationInfo)) :
    Option StationInfo :=
  stationParamsGo none timestamp hist

/-! ### MOSMIX forecast parser (`MOSMIXParser`) -/

/-- A normalized forecast record: the timestamp plus the ten MOSMIX elements
(`MOSMIXParser.ELEMENTS`).  The constant per-station base fields (station ids,
coordinates, provenance) do not participate in any claim and are omitted. -/
structure MRecord where
  timestamp : Nat
  wind_direction : Option ℚ
  wind_speed : Option ℚ
  wind_gust_speed : Option ℚ
  cloud_cover : Option ℚ
  pressure_msl : Option ℚ
  precipitation : Option ℚ
  sunshine : Option ℚ
  dew_point : Option ℚ
  temperature : Option ℚ
  visibility : Option ℚ
deriving DecidableEq, Repr

/-- One `Placemark` of the MOSMIX document: for each of the ten elements of
`MOSMIXParser.ELEMENTS` the decoded value series (`-` decoded as `none`).
Field names follow the DWD element names `DD, FF, FX1, N, PPPP, RR1c, SunD1,
Td, TTT, VV`. -/
structure MStation where
  dd : List (Option ℚ)
  ff : List (Option ℚ)
  fx1 : List (Option ℚ)
  n : List (Option ℚ)
  pppp : List (Option ℚ)
  rr1c : List (Option ℚ)
  sund1 : List (Option ℚ)
  td : List (Option ℚ)
  ttt : List (Option ℚ)
  vv : List (Option ℚ)
deriving DecidableEq, Repr

/-- The `assert len(records[column]) == len(timestamps)` condition of
`MOSMIXParser.parse_station`, for all ten element series of one station. -/
def mosmixSeriesOk (st : MStation) (T : Nat) : Prop :=
  st.dd.length = T ∧ st.ff.length = T ∧ st.fx1.length = T ∧
  st.n.length = T ∧ st.pppp.length = T ∧ st.rr1c.length = T ∧
  st.sund1.length = T ∧ st.td.length = T ∧ st.ttt.length = T ∧
  st.vv.length = T

instance (st : MStation) (T : Nat) : Decidable (mosmixSeriesOk st T) := by
  unfold mosmixSeriesOk; infer_instance

/-- The `zip(*records.values())` step of `MOSMIXParser.parse_station`: turn the
dict of aligned lists into one record per timestamp. -/
def buildMosmixRecords (ts : List Nat) (st : MStation) : List MRecord :=
  (List.range ts.length).map fun i =>
    { timestamp := ts.getD i 0
      wind_direction := st.dd.getD i none
      wind_speed := st.ff.getD i none
      wind_gust_speed := st.fx1.getD i none
      cloud_cover := st.n.getD i none
      pressure_msl := st.pppp.getD i none
      precipitation := st.rr1c.getD i none
      sunshine := st.sund1.getD i none
      dew_point := st.td.getD i none
      temperature := st.ttt.getD i none
      visibility := st.vv.getD i none }

/-- `MOSMIXParser.parse_station`: check every element series against the
timestamp count (the `assert`, fatal on mismatch), then emit one record per
timestamp. -/
def parseStation (ts : List Nat) (st : MStation) : Except String (List MRecord) :=
  if mosmixSeriesOk st ts.length then
    Except.ok (buildMosmixRecords ts st)
  else
    Except.error "AssertionError: element series length differs from timestamp count"

/-- `MOSMIXParser.sanitize_records` applied to one record: a truthy negative
precipitation becomes `None`; a truthy wind direction above 360 is reduced by
360; nothing else changes. -/
def sanitizeRecord (r : MRecord) : MRecord :=
  let p :=
    if pyTruthy r.precipitation && decide (r.precipitation.getD 0 < 0) then
      none
    else r.precipitation
  let wd :=
    if pyTruthy r.wind_direction && decide ((360 : ℚ) < r.wind_direction.getD 0) then
      r.wind_direction.map (fun v => v - 360)
    else r.wind_direction
  { r with precipitation := p, wind_direction := wd }

/-- `MOSMIXParser.sanitize_records` over a record stream. -/
def sanitizeRecords (rs : List MRecord) : List MRecord :=
  rs.map sanitizeRecord

/-- `MOSMIXParser.parse`: one shared timestamp sequence, then per station the
records of `parse_station` passed through `sanitize_records`.  A failed
length assertion aborts the whole parse. -/
def mosmixParse (ts : List Nat) : List MStation → Except String (List MRecord)
  | [] => Except.ok []
  | st :: rest => do
    let rs ← parseStation ts st
    let others ← mosmixParse ts rest
    pure (sanitizeRecords rs ++ others)

/-! ### Generic observation element parsing (`ObservationsParser.parse_elements`)

A raw CSV cell is modelled as the pair of its string form (what the Python
code compares against `-999` and the ignored-value lists) and its numeric
value (what `float(...)` would return on it). -/

/-- Python `str.strip()` on the character list: drop leading and trailing
whitespace. -/
def stripChars (l : List Char) : List Char :=
  ((l.dropWhile Char.isWhitespace).reverse.dropWhile Char.isWhitespace).reverse

/-- Python `str.strip()`. -/
def pyStrip (s : String) : String :=
  ⟨stripChars s.data⟩

/-- One element cell of `ObservationsParser.parse_elements`: `None` when the
stripped string is the `-999` missing sentinel or an ignored code, otherwise
the numeric value. -/
def obsParseValue {α : Type} (ignored : List String) (s : String) (v : α) :
    Option α :=
  if pyStrip s = "-999" ∨ pyStrip s ∈ ignored then none else some v

/-- Modelled from the spec: the unit converter `eighths_to_percent` from the
`brightsky.units` module (not under `src/`); the spec prescribes
"eighths→percent". -/
def eighthsToPercent (v : ℚ) : ℚ :=
  v * 100 / 8

/-- `CloudCoverObservationsParser` element extraction: the ` V_N` cell with
ignored codes `-1` and `9`, converted from eighths to percent. -/
def cloudCoverParse (s : String) (v : ℚ) : Option ℚ :=
  (obsParseValue ["-1", "9"] s v).map eighthsToPercent

/-- `CurrentObservationsParser.parse_row` applied to the
`cloud_cover_total` column: `None` for the `---` sentinel or the ignored
codes `112`, `113`, `126` (`CurrentObservationsParser.IGNORED_VALUES`); no
unit converter is registered for `cloud_cover`. -/
def currentCloudValue (s : String) (v : ℚ) : Option ℚ :=
  if s = "---" ∨ s ∈ ["112", "113", "126"] then none else some v

/-! ### Pressure observations (`PressureObservationsParser.parse_elements`)

The barometric approximation uses a floating-point power with a non-integer
exponent; it is modelled over the reals. -/

/-- Modelled from the spec: the unit converter `hpa_to_pa` from the
`brightsky.units` module (not under `src/`); the spec prescribes "hPa→Pa". -/
def hpaToPa (v : ℝ) : ℝ :=
  v * 100

/-- Python `round` to an integer: round half to even (banker's rounding). -/
noncomputable def pyRoundHalfEven (y : ℝ) : ℤ :=
  if Int.fract y = 1 / 2 then (if Even ⌊y⌋ then ⌊y⌋ else ⌊y⌋ + 1)
  else round y

/-- Python `int(round(x, -1))`: round to the nearest multiple of ten. -/
noncomputable def pyRound10 (x : ℝ) : ℤ :=
  10 * pyRoundHalfEven (x / 10)

/-- The barometric formula of `PressureObservationsParser.parse_elements`,
applied to the unit-converted station pressure and the station height, rounded
to the nearest ten. -/
noncomputable def approxMsl (pst height : ℝ) : ℝ :=
  ((pyRound10 (pst * (1 - 0.0065 * height / 288.15) ^ (-(5.255 : ℝ))) : ℤ) : ℝ)

/-- Python falsiness of an optional float: `None` and `0.0`. -/
def pyFalsyR (v : Option ℝ) : Prop :=
  v = none ∨ v = some 0

open Classical in
/-- The `if not elements['pressure_msl'] and elements['pressure_station']`
branch of `PressureObservationsParser.parse_elements`: substitute the
barometric approximation when the mean-sea-level pressure is falsy and the
station-level pressure is truthy. -/
noncomputable def pressureCombine (msl pst : Option ℝ) (height : ℝ) : Option ℝ :=
  if pyFalsyR msl ∧ ¬ pyFalsyR pst then some (approxMsl (pst.getD 0) height)
  else msl

/-- `PressureObservationsParser.parse_elements`: parse the `   P` and `  P0`
cells, convert hPa→Pa, substitute the approximation when needed, and drop the
`pressure_station` key (`del elements['pressure_station']`).  The result is
the emitted element mapping as a key-value list. -/
noncomputable def pressureParseElements (pRaw : String) (pVal : ℝ)
    (p0Raw : String) (p0Val : ℝ) (height : ℝ) : List (String × Option ℝ) :=
  let msl := (obsParseValue [] pRaw pVal).map hpaToPa
  let pst := (obsParseValue [] p0Raw p0Val).map hpaToPa
  [("pressure_msl", pressureCombine msl pst height)]

/-! ### Wind-gust aggregation (`WindGustsObservationsParser`) -/

/-- Observation type derived from the archive filename
(`ObservationsParser.parse_observation_type`). -/
inductive ObsType where
  | recent
  | historical
deriving DecidableEq, Repr

/-- `ObservationsParser.parse_observation_type`: `_akt.zip` → recent,
`_hist.zip` → historical, anything else is fatal. -/
def parseObservationType (filename : String) : Except String ObsType :=
  if filename.endsWith "_akt.zip" then Except.ok ObsType.recent
  else if filename.endsWith "_hist.zip" then Except.ok ObsType.historical
  else Except.error "ValueError: unable to determine observation type"

/-- Modelled from the spec: the configured retention window
(`settings.MIN_DATE` / `settings.MAX_DATE`, from the `brightsky.settings`
module which is not under `src/`).  Timestamps are minutes since an epoch. -/
structure Retention where
  minDate : Nat
  maxDate : Option Nat
deriving DecidableEq, Repr

/-- `ObservationsParser._skip_timestamp`: outside `[MIN_DATE, MAX_DATE]`. -/
def skipTs (cfg : Retention) (t : Nat) : Bool :=
  decide (t < cfg.minDate) ||
    (match cfg.maxDate with
     | some m => decide (m < t)
     | none => false)

/-- The `values` dict produced by `parse_elements` for one 10-minute row:
wind gust direction (`DX_10`) and speed (`FX_10`). -/
structure GustValues where
  direction : Option ℚ
  speed : Option ℚ
deriving DecidableEq, Repr

/-- One data row of the 10-minute extreme-wind product file: the parsed
`MESS_DATUM` timestamp (minutes since epoch) and the two raw cells. -/
structure GustRow where
  time : Nat
  dxRaw : String
  dxVal : ℚ
  fxRaw : String
  fxVal : ℚ
deriving DecidableEq, Repr

/-- `parse_elements` for `WindGustsObservationsParser` (no ignored values, no
converters). -/
def gustValues (r : GustRow) : GustValues :=
  { direction := obsParseValue [] r.dxRaw r.dxVal
    speed := obsParseValue [] r.fxRaw r.fxVal }

/-- The sort key of `max(hour_values, key=lambda v: v['wind_gust_speed'])`.
Rows only enter `hour_values` with a truthy (non-`None`) speed, so the
default never applies there. -/
def gustKey (v : GustValues) : ℚ :=
  v.speed.getD 0

/-- Python `max` with a key: scan left to right, replace the current maximum
only on a strictly greater key, so the first maximal element wins. -/
def pyMax (m : GustValues) : List GustValues → GustValues
  | [] => m
  | e :: rest => pyMax (if gustKey m < gustKey e then e else m) rest

/-- One emitted hourly wind-gust record
(`WindGustsObservationsParser._make_record`).  The station parameters are kept
as the unresolved-or-resolved `Option` returned by `_station_params`. -/
structure GRecord where
  source : String
  info : Option StationInfo
  timestamp : Nat
  direction : Option ℚ
  speed : Option ℚ
deriving DecidableEq, Repr

/-- `WindGustsObservationsParser._make_record`: the sample of the group with
maximal gust speed, or `None`/`None` for an empty group. -/
def makeGRecord (filename : String) (hist : List (Nat × StationInfo))
    (t : Nat) (hv : List GustValues) : GRecord :=
  let ds : Option ℚ × Option ℚ :=
    match hv with
    | [] => (none, none)
    | v :: vs => ((pyMax v vs).direction, (pyMax v vs).speed)
  { source := "Observations:Recent:" ++ filename
    info := stationParams t hist
    timestamp := t
    direction := ds.1
    speed := ds.2 }

/-- The main loop of `WindGustsObservationsParser.parse_reader`: accumulate
rows with truthy gust speed into the current hour group, emit a record at
each top-of-hour row (which closes its hour), and return the still-pending
group alongside the emitted records. -/
def gustLoop (cfg : Retention) (filename : String)
    (hist : List (Nat × StationInfo)) :
    List GustRow → List GustValues → List GRecord × List GustValues
  | [], hv => ([], hv)
  | r :: rest, hv =>
    if skipTs cfg (r.time + 60) then gustLoop cfg filename hist rest hv
    else
      let v := gustValues r
      let hv' := if pyTruthy v.speed then hv ++ [v] else hv
      if r.time % 60 = 0 then
        let res := gustLoop cfg filename hist rest []
        (makeGRecord filename hist r.time hv' :: res.1, res.2)
      else gustLoop cfg filename hist rest hv'

/-- `WindGustsObservationsParser.parse_reader`: drop the first row (it belongs
to the previous file's last hour), run the hourly aggregation loop, and for a
historical file whose last row ends at minute `:50` flush the pending partial
group as an extra record at that row's time plus ten minutes. -/
def gustParseReader (obs : ObsType) (cfg : Retention) (filename : String)
    (hist : List (Nat × StationInfo)) (rows : List GustRow) : List GRecord :=
  match rows with
  | [] => []
  | _first :: rest =>
    let res := gustLoop cfg filename hist rest []
    match rest.getLast? with
    | some lastRow =>
      if obs = ObsType.historical ∧ lastRow.time % 60 = 50 then
        res.1 ++ [makeGRecord filename hist (lastRow.time + 10) res.2]
      else res.1
    | none => res.1

/-! ### Format dispatcher (`get_parser`) -/

/-- The parser classes registered in `get_parser`. -/
inductive ParserCls where
  | mosmix
  | currentObservations
  | wind
  | cloudCover
  | pressure
  | precipitation
  | sunshine
  | dewPoint
  | temperature
  | visibility
  | windGusts
deriving DecidableEq, Repr

/-- The `PRIORITY` class attribute: `Parser.PRIORITY = 10`,
`MOSMIXParser.PRIORITY = 20`, `CurrentObservationsParser.PRIORITY = 30`. -/
def parserPriority : ParserCls → Nat
  | ParserCls.mosmix => 20
  | ParserCls.currentObservations => 30
  | _ => 10

/-- `str.startswith` / an anchored regex prefix match, on character lists. -/
def strHead (p s : String) : Bool :=
  p.data.isPrefixOf s.data

/-- A regex `\w` character (ASCII range). -/
def isWordChar (c : Char) : Bool :=
  c.isAlphanum || c = '_'

/-- `re.match` for the pattern `\w{5}-BEOB\.csv$`: five word characters from
the start, then the literal tail, then the end of the name. -/
def matchesCurrentObs (s : String) : Bool :=
  s.length = 14 && (s.take 5).all isWordChar && s.drop 5 = "-BEOB.csv"

/-- The ordered `(pattern, parser)` table of `get_parser`, with each regex
compiled to its `re.match` semantics (anchored at the start; `$`-terminated
patterns must also end there). -/
def parserRules : List ((String → Bool) × ParserCls) :=
  [(fun s => s = "MOSMIX_S_LATEST_240.kmz", ParserCls.mosmix),
   (matchesCurrentObs, ParserCls.currentObservations),
   (fun s => strHead "stundenwerte_FF_" s, ParserCls.wind),
   (fun s => strHead "stundenwerte_N_" s, ParserCls.cloudCover),
   (fun s => strHead "stundenwerte_P0_" s, ParserCls.pressure),
   (fun s => strHead "stundenwerte_RR_" s, ParserCls.precipitation),
   (fun s => strHead "stundenwerte_SD_" s, ParserCls.sunshine),
   (fun s => strHead "stundenwerte_TD_" s, ParserCls.dewPoint),
   (fun s => strHead "stundenwerte_TU_" s, ParserCls.temperature),
   (fun s => strHead "stundenwerte_VV_" s, ParserCls.visibility),
   (fun s => strHead "10minutenwerte_extrema_wind_" s, ParserCls.windGusts)]

/-- `get_parser`: the first rule whose pattern matches, `none` (Python
`None`, by falling off the loop) otherwise. -/
def getParser (filename : String) : Option ParserCls :=
  (parserRules.find? (fun rule => rule.1 filename)).map (fun rule => rule.2)

/-- The dispatch step of `tasks.parse`: `parser_cls = get_parser(...)`
followed by `parser_cls(path=path, url=url)`.  When `get_parser` produced no
parser, instantiating `None` raises, so the caller observes a fatal error. -/
def parseTask (filename : String) : Except String ParserCls :=
  match getParser filename with
  | some p => Except.ok p
  | none => Except.error "TypeError: NoneType object is not callable"

/-- `os.path.basename` for URL-like names: the part after the last slash. -/
def basename (s : String) : String :=
  ⟨((s.data.reverse.takeWhile (fun c => c ≠ '/'))).reverse⟩

/-! ### Orchestration (`tasks.poll`, `worker.process`)

The queue/lock state kept by the external huey/redis collaborator is modelled
from the spec: pending tasks are the enqueued-but-not-started ones, and a lock
is keyed by URL with its acquisition time. -/

deriving instance DecidableEq for Except

/-- A queued task: resource URL plus the resolved parser's priority. -/
structure QTask where
  url : String
  priority : Nat
deriving DecidableEq, Repr

/-- Modelled from the spec: the shared queue/lock state held by the huey
worker backend (external collaborator, not under `src/`): not-yet-started
tasks and active per-URL locks with their acquisition times. -/
structure QState where
  pending : List QTask
  locks : List (String × Nat)
deriving DecidableEq, Repr

/-- Modelled from the spec: `huey.expire_locks(1800)` — drop every lock older
than the 1800-second timeout (the fixed expiry passed in `tasks.poll`). -/
def expireLocks (now : Nat) (locks : List (String × Nat)) :
    List (String × Nat) :=
  locks.filter (fun l => decide (now ≤ l.2 + 1800))

/-- The enqueue loop of `tasks.poll`: skip URLs already pending (checked
against the pending list snapshot taken before the loop) or currently locked;
otherwise resolve the parser (`None` is fatal at `.PRIORITY`) and enqueue with
its priority. -/
def pollLoop (pendingUrls lockUrls : List String) :
    List String → List QTask → Except String (List QTask)
  | [], acc => Except.ok acc
  | url :: rest, acc =>
    if url ∈ pendingUrls then pollLoop pendingUrls lockUrls rest acc
    else if url ∈ lockUrls then pollLoop pendingUrls lockUrls rest acc
    else
      match getParser (basename url) with
      | none =>
        Except.error "AttributeError: NoneType object has no attribute PRIORITY"
      | some p =>
        pollLoop pendingUrls lockUrls rest (acc ++ [⟨url, parserPriority p⟩])

/-- `tasks.poll` with `enqueue=True`, given the changed candidate URLs from
the poller: expire stale locks first, then enqueue every candidate that is
neither pending nor locked. -/
def pollStep (now : Nat) (files : List String) (s : QState) :
    Except String QState :=
  let kept := expireLocks now s.locks
  match pollLoop (s.pending.map (fun t => t.url)) (kept.map (fun l => l.1))
      files [] with
  | Except.ok newTasks => Except.ok ⟨s.pending ++ newTasks, kept⟩
  | Except.error e => Except.error e

/-- What the enqueue loop does with a single candidate URL (used to
characterize `pollLoop` on successful runs): skipped when already pending or
locked, otherwise turned into a task with the resolved parser's priority. -/
def pollCandidate (pendingUrls lockUrls : List String) (u : String) :
    Option QTask :=
  if u ∈ pendingUrls ∨ u ∈ lockUrls then none
  else (getParser (basename u)).map (fun p => ⟨u, parserPriority p⟩)

/-- The URLs that are queued or running in a state. -/
def stateUrls (s : QState) : List String :=
  s.pending.map (fun t => t.url) ++ s.locks.map (fun l => l.1)

/-- At most one task per URL is queued or running. -/
def atMostOnePerUrl (s : QState) : Prop :=
  (stateUrls s).Nodup

/-- The transitions of the orchestration model: a poll cycle (the candidate
set from the poller has no duplicate URLs — the spec's poll step returns a
set of resources), a worker starting a pending task (`worker.process`
acquires the URL's lock), and a task finishing (lock released). -/
inductive QStep : Nat → QState → QState → Prop where
  | poll (now : Nat) (files : List String) (s s' : QState) :
      files.Nodup → pollStep now files s = Except.ok s' → QStep now s s'
  | start (now : Nat) (s : QState) (t : QTask) :
      t ∈ s.pending →
      QStep now s ⟨s.pending.erase t, (t.url, now) :: s.locks⟩
  | finish (now : Nat) (s : QState) (url : String) :
      QStep now s ⟨s.pending, s.locks.filter (fun l => decide (l.1 ≠ url))⟩

/-- States reachable from the empty queue by poll/start/finish steps. -/
inductive QReachable : QState → Prop where
  | init : QReachable ⟨[], []⟩
  | step (now : Nat) (s s' : QState) :
      QReachable s → QStep now s s' → QReachable s'

/-! ## Helper lemmas -/

theorem stationParamsGo_some_eq (j : StationInfo) (T : Nat) :
    ∀ l : List (Nat × StationInfo),
      stationParamsGo (some j) T l = some ((stationParams T l).getD j)
  | [] => rfl
  | (d, info) :: rest => by
    simp only [stationParamsGo, stationParams]
    by_cases h : T < d
    · simp [h]
    · simp only [h, if_false]
      rw [stationParamsGo_some_eq info T rest]
      simp

theorem buildMosmixRecords_length (ts : List Nat) (st : MStation) :
    (buildMosmixRecords ts st).length = ts.length := by
  simp [buildMosmixRecords]

theorem sanitizeRecords_length (rs : List MRecord) :
    (sanitizeRecords rs).length = rs.length := by
  simp [sanitizeRecords]

/-! ## Claims -/

/-- **C1**: For a MOSMIX document with `S` stations and `T` timestamps,
`MOSMIXParser.parse` yields exactly `S·T` records when every element series of
every station has length `T`, and aborts with a fatal error whenever some
station has an element series whose length differs from `T`. -/
theorem mosmix_record_count (ts : List Nat) (stations : List MStation) :
    ((∀ st ∈ stations, mosmixSeriesOk st ts.length) →
      ∃ l, mosmixParse ts stations = Except.ok l ∧
        l.length = stations.length * ts.length)
    ∧ ((∃ st ∈ stations, ¬ mosmixSeriesOk st ts.length) →
      ∃ e, mosmixParse ts stations = Except.error e) := by
  induction stations with
  | nil =>
    refine ⟨fun _ => ⟨[], rfl, by simp⟩, ?_⟩
    rintro ⟨st, hmem, -⟩
    exact absurd hmem (List.not_mem_nil st)
  | cons st rest ih =>
    constructor
    · intro h
      have hst : mosmixSeriesOk st ts.length := h st (List.mem_cons_self st rest)
      obtain ⟨l, hl, hlen⟩ := ih.1 fun s hs => h s (List.mem_cons_of_mem st hs)
      refine ⟨sanitizeRecords (buildMosmixRecords ts st) ++ l, ?_, ?_⟩
      · simp only [mosmixParse, parseStation, hst, if_true, hl]
        rfl
      · simp [sanitizeRecords_length, buildMosmixRecords_length, hlen,
          List.length_cons, Nat.succ_mul, Nat.add_comm]
    · rintro ⟨bad, hmem, hbad⟩
      rcases List.mem_cons.mp hmem with heq | hmem'
      · subst heq
        refine ⟨"AssertionError: element series length differs from timestamp count", ?_⟩
        simp only [mosmixParse, parseStation, hbad, if_false]
        rfl
      · by_cases hst : mosmixSeriesOk st ts.length
        · obtain ⟨e, he⟩ := ih.2 ⟨bad, hmem', hbad⟩
          refine ⟨e, ?_⟩
          simp only [mosmixParse, parseStation, hst, if_true, he]
          rfl
        · refine ⟨"AssertionError: element series length differs from timestamp count", ?_⟩
          simp only [mosmixParse, parseStation, hst, if_false]
          rfl

/-- Witness for C1: one station with matching series of length 1 gives one
record; a station with empty series against one timestamp is fatal. -/
theorem mosmix_record_count_witness :
    (∃ l,
      mosmixParse [0]
        [⟨[some 1], [some 1], [some 1], [some 1], [some 1], [some 1],
          [some 1], [some 1], [some 1], [some 1]⟩] = Except.ok l ∧
      l.length = 1 * 1)
    ∧ (∃ e,
      mosmixParse [0] [⟨[], [], [], [], [], [], [], [], [], []⟩] =
        Except.error e) :=
  ⟨(mosmix_record_count [0]
      [⟨[some 1], [some 1], [some 1], [some 1], [some 1], [some 1],
        [some 1], [some 1], [some 1], [some 1]⟩]).1 (by decide),
   (mosmix_record_count [0] [⟨[], [], [], [], [], [], [], [], [], []⟩]).2
     ⟨⟨[], [], [], [], [], [], [], [], [], []⟩, by simp, by decide⟩⟩

/-- **C2**: Over a station location history sorted ascending by effective
date, `_station_params` returns the entry with the greatest effective date `≤
T` (inclusive at equality), and is unresolved (`none`) exactly when no entry
has effective date `≤ T`. -/
theorem station_history_lookup (hist : List (Nat × StationInfo)) (T : Nat)
    (hsorted : List.Pairwise (fun a b => a.1 < b.1) hist) :
    (∀ d₀ i₀, (d₀, i₀) ∈ hist → d₀ ≤ T →
      (∀ p ∈ hist, p.1 ≤ T → p.1 ≤ d₀) → stationParams T hist = some i₀)
    ∧ (stationParams T hist = none ↔ ∀ p ∈ hist, T < p.1) := by
  induction hist with
  | nil =>
    refine ⟨?_, by simp [stationParams, stationParamsGo]⟩
    rintro d₀ i₀ hmem
    exact absurd hmem (List.not_mem_nil _)
  | cons hd rest ih =>
    obtain ⟨d, info⟩ := hd
    obtain ⟨hhead, htail⟩ := List.pairwise_cons.mp hsorted
    by_cases hTd : T < d
    · have hall : ∀ p ∈ (d, info) :: rest, T < p.1 := by
        rintro p hp
        rcases List.mem_cons.mp hp with heq | hmem'
        · subst heq; exact hTd
        · exact hTd.trans (hhead p hmem')
      refine ⟨?_, ?_⟩
      · rintro d₀ i₀ hmem hle -
        exact absurd hle (Nat.not_le.mpr (hall (d₀, i₀) hmem))
      · simp only [stationParams, stationParamsGo, hTd, if_pos]
        exact ⟨fun _ => hall, fun _ => trivial⟩
    · have hrun : stationParams T ((d, info) :: rest) =
          some ((stationParams T rest).getD info) := by
        simp only [stationParams, stationParamsGo, hTd, if_neg, if_false]
        exact stationParamsGo_some_eq info T rest
      refine ⟨?_, ?_⟩
      · rintro d₀ i₀ hmem hle hmax
        rcases List.mem_cons.mp hmem with heq | hmem'
        · rw [Prod.mk.injEq] at heq
          obtain ⟨hd₀, hi₀⟩ := heq
          subst hd₀; subst hi₀
          have hrest : stationParams T rest = none := by
            refine ((ih htail).2).mpr ?_
            intro p hp
            by_contra hnot
            have hple : p.1 ≤ T := Nat.le_of_not_lt hnot
            have := hmax p (List.mem_cons_of_mem _ hp) hple
            exact absurd (hhead p hp) (Nat.not_lt.mpr this)
          rw [hrun, hrest]; rfl
        · have hrest : stationParams T rest = some i₀ :=
            (ih htail).1 d₀ i₀ hmem' hle fun p hp hple =>
              hmax p (List.mem_cons_of_mem _ hp) hple
          rw [hrun, hrest]; rfl
      · rw [hrun]
        simp only [Option.some_ne_none, false_iff]
        intro hall
        exact absurd (hall (d, info) (List.mem_cons_self _ _)) (by simpa using hTd)

/-- Witness for C2: history `{2001 → A, 2010 → B}`; `lookup 2005 = A`,
`lookup 2010 = B` (inclusive), `lookup 1999` unresolved. -/
theorem station_history_lookup_witness :
    stationParams 2005 [(2001, ⟨1, 2, 3, "A"⟩), (2010, ⟨4, 5, 6, "B"⟩)] =
      some ⟨1, 2, 3, "A"⟩
    ∧ stationParams 2010 [(2001, ⟨1, 2, 3, "A"⟩), (2010, ⟨4, 5, 6, "B"⟩)] =
      some ⟨4, 5, 6, "B"⟩
    ∧ stationParams 1999 [(2001, ⟨1, 2, 3, "A"⟩), (2010, ⟨4, 5, 6, "B"⟩)] =
      none :=
  ⟨(station_history_lookup _ 2005 (by decide)).1 2001 ⟨1, 2, 3, "A"⟩
      (by decide) (by decide) (by decide),
   (station_history_lookup _ 2010 (by decide)).1 2010 ⟨4, 5, 6, "B"⟩
      (by decide) (by decide) (by decide),
   (station_history_lookup _ 1999 (by decide)).2.mpr (by decide)⟩

/-- **C3**: Forecast sanitization maps a negative precipitation value to
`None` and leaves precipitation `0` unchanged, maps a wind direction above
`360` to itself minus `360` and leaves `360` unchanged, and changes no other
field of the record. -/
theorem sanitize_records_spec (r : MRecord) :
    (∀ v, r.precipitation = some v → v < 0 →
      (sanitizeRecord r).precipitation = none)
    ∧ (r.precipitation = some 0 → (sanitizeRecord r).precipitation = some 0)
    ∧ (∀ v, r.wind_direction = some v → 360 < v →
      (sanitizeRecord r).wind_direction = some (v - 360))
    ∧ (r.wind_direction = some 360 → (sanitizeRecord r).wind_direction = some 360)
    ∧ (sanitizeRecord r).timestamp = r.timestamp
    ∧ (sanitizeRecord r).wind_speed = r.wind_speed
    ∧ (sanitizeRecord r).wind_gust_speed = r.wind_gust_speed
    ∧ (sanitizeRecord r).cloud_cover = r.cloud_cover
    ∧ (sanitizeRecord r).pressure_msl = r.pressure_msl
    ∧ (sanitizeRecord r).sunshine = r.sunshine
    ∧ (sanitizeRecord r).dew_point = r.dew_point
    ∧ (sanitizeRecord r).temperature = r.temperature
    ∧ (sanitizeRecord r).visibility = r.visibility := by
  refine ⟨?_, ?_, ?_, ?_, rfl, rfl, rfl, rfl, rfl, rfl, rfl, rfl, rfl⟩
  · intro v hv hlt
    simp [sanitizeRecord, pyTruthy, hv, ne_of_lt hlt, hlt]
  · intro h0
    simp [sanitizeRecord, pyTruthy, h0]
  · intro v hv hgt
    have hne : v ≠ 0 := by
      intro h; rw [h] at hgt; norm_num at hgt
    simp [sanitizeRecord, pyTruthy, hv, hne, hgt]
  · intro h360
    simp [sanitizeRecord, pyTruthy, h360]

/-- Witness for C3: precipitation `-1/10` is nulled, `0` kept; wind direction
`370` becomes `10`, `360` is kept; an untouched field survives. -/
theorem sanitize_records_spec_witness :
    (sanitizeRecord ⟨0, some 370, none, none, none, none, some (-1/10), none,
        none, some 300, none⟩).precipitation = none
    ∧ (sanitizeRecord ⟨0, some 360, none, none, none, none, some 0, none,
        none, some 300, none⟩).precipitation = some 0
    ∧ (sanitizeRecord ⟨0, some 370, none, none, none, none, some (-1/10), none,
        none, some 300, none⟩).wind_direction = some (370 - 360)
    ∧ (sanitizeRecord ⟨0, some 360, none, none, none, none, some 0, none,
        none, some 300, none⟩).wind_direction = some 360
    ∧ (sanitizeRecord ⟨0, some 370, none, none, none, none, some (-1/10), none,
        none, some 300, none⟩).temperature = some 300 :=
  ⟨(sanitize_records_spec _).1 (-1/10) rfl (by norm_num),
   (sanitize_records_spec _).2.1 rfl,
   (sanitize_records_spec _).2.2.1 370 rfl (by norm_num),
   (sanitize_records_spec _).2.2.2.1 rfl,
   (sanitize_records_spec
     ⟨0, some 370, none, none, none, none, some (-1/10), none,
       none, some 300, none⟩).2.2.2.2.2.2.2.2.2.2.2.1⟩

theorem obsParseValue_none_iff {α : Type} (ig : List String) (s : String) (v : α) :
    obsParseValue ig s v = none ↔ (pyStrip s = "-999" ∨ pyStrip s ∈ ig) := by
  unfold obsParseValue
  split <;> simp_all

theorem obsParseValue_some {α : Type} (ig : List String) (s : String) (v : α)
    (h : ¬ (pyStrip s = "-999" ∨ pyStrip s ∈ ig)) : obsParseValue ig s v = some v := by
  unfold obsParseValue
  exact if_neg h

/-- Counterexample to **C8** as stated: in the historical/recent cloud-cover
parser the raw value `112` is *not* mapped to null — it is converted from
eighths to percent (`112 · 100/8 = 1400`).  The codes `{112, 113, 126}` belong
to `CurrentObservationsParser.IGNORED_VALUES`, not to
`CloudCoverObservationsParser.ignored_values` (which is `{-1, 9}`). -/
theorem cloud_cover_ignore_counterexample :
    cloudCoverParse "112" 112 = some 1400 ∧ cloudCoverParse "112" 112 ≠ none := by
  constructor
  · rw [cloudCoverParse, obsParseValue_some _ _ _ (by decide)]
    rw [Option.map_some']
    norm_num [eighthsToPercent]
  · rw [cloudCoverParse, obsParseValue_some _ _ _ (by decide)]
    simp

/-- **C8** (amended): in the historical/recent cloud-cover parser a raw value
is mapped to null exactly when its stripped form is the `-999` missing
sentinel or one of the ignore codes `{-1, 9}`; every non-ignored value is
converted from eighths to percent.  The codes `{112, 113, 126}` (together
with the `---` sentinel) null cloud cover in the *current*-observations
parser instead. -/
theorem cloud_cover_null_iff (s : String) (v : ℚ) :
    (cloudCoverParse s v = none ↔
      (pyStrip s = "-999" ∨ pyStrip s = "-1" ∨ pyStrip s = "9"))
    ∧ (¬ (pyStrip s = "-999" ∨ pyStrip s = "-1" ∨ pyStrip s = "9") →
      cloudCoverParse s v = some (v * 100 / 8))
    ∧ (currentCloudValue s v = none ↔
      (s = "---" ∨ s = "112" ∨ s = "113" ∨ s = "126")) := by
  refine ⟨?_, ?_, ?_⟩
  · rw [cloudCoverParse, Option.map_eq_none', obsParseValue_none_iff]
    simp
  · intro h
    rw [cloudCoverParse, obsParseValue_some _ _ _ (by simpa using h)]
    rw [Option.map_some', eighthsToPercent]
  · unfold currentCloudValue
    split <;> simp_all

/-- Witness for C8 (amended): `5` eighths become `62.5` percent, a padded
`" 9 "` is nulled, and the current-observations parser nulls `113`. -/
theorem cloud_cover_null_iff_witness :
    cloudCoverParse "5" 5 = some (5 * 100 / 8)
    ∧ cloudCoverParse " 9 " 9 = none
    ∧ currentCloudValue "113" 3 = none :=
  ⟨(cloud_cover_null_iff "5" 5).2.1 (by decide),
   (cloud_cover_null_iff " 9 " 9).1.mpr (by decide),
   (cloud_cover_null_iff "113" 3).2.2.mpr (by decide)⟩

/-- **C4** (amended): when the mean-sea-level pressure cell is missing and
the station-level pressure cell is present with a non-zero value, the emitted
mean-sea-level pressure is the barometric approximation
`round_to_nearest_10(p_station · (1 − 0.0065·h/288.15)^(−5.255))` of the
unit-converted station pressure and the station height; the raw
station-level value is absent from the emitted element record; and the
computation is deterministic. -/
theorem pressure_msl_approximation (pRaw : String) (pVal : ℝ)
    (p0Raw : String) (p0Val height : ℝ)
    (hmsl : pyStrip pRaw = "-999") (hp0 : pyStrip p0Raw ≠ "-999") (hnz : p0Val ≠ 0) :
    pressureParseElements pRaw pVal p0Raw p0Val height =
      [("pressure_msl", some (approxMsl (hpaToPa p0Val) height))]
    ∧ (∀ v, ("pressure_station", v) ∉
        pressureParseElements pRaw pVal p0Raw p0Val height)
    ∧ (∀ (pRaw' : String) (pVal' : ℝ) (p0Raw' : String) (p0Val' height' : ℝ),
        pRaw = pRaw' → pVal = pVal' → p0Raw = p0Raw' → p0Val = p0Val' →
        height = height' →
        pressureParseElements pRaw pVal p0Raw p0Val height =
          pressureParseElements pRaw' pVal' p0Raw' p0Val' height') := by
  have h1 : obsParseValue ([] : List String) pRaw pVal = none :=
    (obsParseValue_none_iff _ _ _).mpr (Or.inl hmsl)
  have h2 : obsParseValue ([] : List String) p0Raw p0Val = some p0Val :=
    obsParseValue_some _ _ _ (by simpa using hp0)
  have hmain : pressureParseElements pRaw pVal p0Raw p0Val height =
      [("pressure_msl", some (approxMsl (hpaToPa p0Val) height))] := by
    rw [pressureParseElements, h1, h2, Option.map_none', Option.map_some']
    rw [pressureCombine, if_pos]
    · rfl
    · refine ⟨Or.inl rfl, ?_⟩
      rintro (h | h)
      · exact Option.noConfusion h
      · have : hpaToPa p0Val = 0 := Option.some_injective _ h
        rw [hpaToPa] at this
        exact hnz (by linarith)
  refine ⟨hmain, ?_, ?_⟩
  · intro v hv
    rw [hmain] at hv
    simp at hv
  · rintro pRaw' pVal' p0Raw' p0Val' height' rfl rfl rfl rfl rfl
    rfl

/-- Counterexample to **C4** as stated: with the mean-sea-level cell missing
and the station-level cell *present with value 0*, the code's Python
truthiness check skips the approximation and emits a null mean-sea-level
pressure, while the claimed formula would give the non-null value `0`
(`round_to_nearest_10(0 · …) = 0`). -/
theorem pressure_msl_zero_counterexample :
    pressureParseElements "-999" (-999) "0" 0 500 = [("pressure_msl", none)]
    ∧ approxMsl (hpaToPa 0) 500 = 0
    ∧ (none : Option ℝ) ≠ some (approxMsl (hpaToPa 0) 500) := by
  have h1 : obsParseValue ([] : List String) "-999" ((-999 : ℝ)) = none :=
    (obsParseValue_none_iff _ _ _).mpr (Or.inl (by decide))
  have h2 : obsParseValue ([] : List String) "0" ((0 : ℝ)) = some 0 :=
    obsParseValue_some _ _ _ (by decide)
  have hzero : approxMsl (hpaToPa 0) 500 = 0 := by
    rw [approxMsl, hpaToPa, pyRound10, pyRoundHalfEven]
    norm_num
  refine ⟨?_, hzero, ?_⟩
  · rw [pressureParseElements, h1, h2, Option.map_none', Option.map_some']
    rw [pressureCombine, if_neg]
    rintro ⟨-, hnf⟩
    exact hnf (Or.inr (by rw [hpaToPa]; norm_num))
  · rw [hzero]
    simp

/-- Witness for C4 (amended): station pressure `1000` hPa, height `500` m,
missing sea-level value. -/
theorem pressure_msl_approximation_witness :
    pyStrip "-999" = "-999" ∧ pyStrip "1000" ≠ "-999" ∧ (1000 : ℝ) ≠ 0
    ∧ pressureParseElements "-999" (-999) "1000" 1000 500 =
        [("pressure_msl", some (approxMsl (hpaToPa 1000) 500))] :=
  ⟨by decide, by decide, by norm_num,
   (pressure_msl_approximation "-999" (-999) "1000" 1000 500 (by decide)
     (by decide) (by norm_num)).1⟩

theorem find_first_rule (fn : String) :
    ∀ (l : List ((String → Bool) × ParserCls)) (i : Nat)
      (rule : (String → Bool) × ParserCls),
      l.get? i = some rule → rule.1 fn = true →
      (∀ j rj, j < i → l.get? j = some rj → rj.1 fn = false) →
      l.find? (fun r => r.1 fn) = some rule
  | [], i, rule, hget, _, _ => by simp at hget
  | hd :: tl, 0, rule, hget, htrue, _ => by
    rw [List.get?_cons_zero] at hget
    obtain rfl : hd = rule := Option.some_injective _ hget
    exact List.find?_cons_of_pos _ htrue
  | hd :: tl, i + 1, rule, hget, htrue, hfirst => by
    rw [List.get?_cons_succ] at hget
    have hhd : hd.1 fn = false :=
      hfirst 0 hd (Nat.succ_pos i) List.get?_cons_zero
    rw [List.find?_cons_of_neg _ (by simp [hhd])]
    exact find_first_rule fn tl i rule hget htrue fun j rj hj hgetj =>
      hfirst (j + 1) rj (Nat.succ_lt_succ hj) (by simpa using hgetj)

/-- **C7**: the dispatcher matches the resource name against the ordered rule
table and returns the first matching parser; a name matching no rule yields no
parser, and the calling task's dispatch step then fails with an observable
error instead of silently continuing — there is no fallback parser. -/
theorem dispatcher_first_match :
    (∀ (fn : String) (i : Nat) (rule : (String → Bool) × ParserCls),
      parserRules.get? i = some rule → rule.1 fn = true →
      (∀ j rj, j < i → parserRules.get? j = some rj → rj.1 fn = false) →
      getParser fn = some rule.2)
    ∧ (∀ fn : String, getParser fn = none ↔
        ∀ rule ∈ parserRules, rule.1 fn = false)
    ∧ (∀ fn : String, getParser fn = none →
        parseTask fn =
          Except.error "TypeError: NoneType object is not callable") := by
  refine ⟨?_, ?_, ?_⟩
  · intro fn i rule hget htrue hfirst
    rw [getParser, find_first_rule fn parserRules i rule hget htrue hfirst]
    rfl
  · intro fn
    rw [getParser, Option.map_eq_none', List.find?_eq_none]
    constructor
    · intro h rule hmem
      simpa using h rule hmem
    · intro h rule hmem
      simp [h rule hmem]
  · intro fn h
    rw [parseTask, h]

/-- Witness for C7: the MOSMIX archive name matches the first rule; an
unrecognized name produces no parser and the dispatch step errors. -/
theorem dispatcher_first_match_witness :
    getParser "MOSMIX_S_LATEST_240.kmz" = some ParserCls.mosmix
    ∧ getParser "unknown_resource.bin" = none
    ∧ parseTask "unknown_resource.bin" =
        Except.error "TypeError: NoneType object is not callable" := by
  refine ⟨?_, ?_, ?_⟩
  · exact dispatcher_first_match.1 "MOSMIX_S_LATEST_240.kmz" 0
      (fun s => s = "MOSMIX_S_LATEST_240.kmz", ParserCls.mosmix) rfl (by decide)
      (fun j rj hj _ => absurd hj (Nat.not_lt_zero j))
  · exact (dispatcher_first_match.2.1 "unknown_resource.bin").mpr (by decide)
  · exact dispatcher_first_match.2.2 "unknown_resource.bin"
      ((dispatcher_first_match.2.1 "unknown_resource.bin").mpr (by decide))

theorem pyTruthy_iff (o : Option ℚ) :
    pyTruthy o = true ↔ (o ≠ none ∧ o ≠ some 0) := by
  cases o with
  | none => simp [pyTruthy]
  | some q => simp [pyTruthy]

theorem pyMax_first_max (vs : List GustValues) :
    ∀ v : GustValues,
      ∃ l₁ l₂, v :: vs = l₁ ++ pyMax v vs :: l₂
        ∧ (∀ e ∈ l₁, gustKey e < gustKey (pyMax v vs))
        ∧ (∀ e ∈ v :: vs, gustKey e ≤ gustKey (pyMax v vs)) := by
  induction vs with
  | nil =>
    intro v
    exact ⟨[], [], rfl, by simp, by simp [pyMax]⟩
  | cons e rest ih =>
    intro v
    by_cases hlt : gustKey v < gustKey e
    · obtain ⟨l₁, l₂, heq, hless, hle⟩ := ih e
      have hm : pyMax v (e :: rest) = pyMax e rest := by
        simp [pyMax, hlt]
      refine ⟨v :: l₁, l₂, ?_, ?_, ?_⟩
      · rw [hm, List.cons_append, ← heq]
      · intro x hx
        rw [hm]
        rcases List.mem_cons.mp hx with rfl | hx'
        · exact hlt.trans_le (hle e (List.mem_cons_self _ _))
        · exact hless x hx'
      · intro x hx
        rw [hm]
        rcases List.mem_cons.mp hx with rfl | hx'
        · exact (hlt.trans_le (hle e (List.mem_cons_self _ _))).le
        · exact hle x hx'
    · have hle' : gustKey e ≤ gustKey v := le_of_not_lt hlt
      obtain ⟨l₁, l₂, heq, hless, hlemax⟩ := ih v
      have hm : pyMax v (e :: rest) = pyMax v rest := by
        simp [pyMax, hlt]
      cases l₁ with
      | nil =>
        obtain ⟨hmv, hl₂⟩ : pyMax v rest = v ∧ l₂ = rest := by
          rw [List.nil_append] at heq
          exact ⟨(List.cons.injEq _ _ _ _ ▸ heq).1.symm,
            ((List.cons.injEq _ _ _ _ ▸ heq).2).symm⟩
        refine ⟨[], e :: rest, ?_, by simp, ?_⟩
        · rw [hm, hmv, List.nil_append]
        · intro x hx
          rw [hm, hmv]
          rcases List.mem_cons.mp hx with rfl | hx'
          · exact le_refl _
          · rcases List.mem_cons.mp hx' with rfl | hx''
            · exact hle'
            · exact hmv ▸ hlemax x (List.mem_cons_of_mem _ hx'')
      | cons h₁ t₁ =>
        obtain ⟨hh₁, hrest⟩ : h₁ = v ∧ rest = t₁ ++ pyMax v rest :: l₂ := by
          rw [List.cons_append] at heq
          exact ⟨(List.cons.injEq _ _ _ _ ▸ heq).1.symm,
            (List.cons.injEq _ _ _ _ ▸ heq).2⟩
        have hvlt : gustKey v < gustKey (pyMax v rest) :=
          hh₁ ▸ hless h₁ (List.mem_cons_self _ _)
        refine ⟨v :: e :: t₁, l₂, ?_, ?_, ?_⟩
        · rw [hm]
          show v :: e :: rest = v :: e :: (t₁ ++ pyMax v rest :: l₂)
          rw [← hrest]
        · intro x hx
          rw [hm]
          rcases List.mem_cons.mp hx with rfl | hx'
          · exact hvlt
          · rcases List.mem_cons.mp hx' with rfl | hx''
            · exact hle'.trans_lt hvlt
            · exact hless x (hh₁ ▸ List.mem_cons_of_mem _ hx'')
        · intro x hx
          rw [hm]
          rcases List.mem_cons.mp hx with rfl | hx'
          · exact hvlt.le
          · rcases List.mem_cons.mp hx' with rfl | hx''
            · exact hle'.trans hvlt.le
            · exact hlemax x (List.mem_cons_of_mem _ hx'')

/-- **C5**: the emitted hourly record takes speed and direction from the
group's sample with maximal gust speed, the first-encountered maximal sample
winning ties; an empty group still yields a record with null speed and null
direction; and the loop emits exactly one record per retained top-of-hour row
(one per hour, never omitted). -/
theorem gust_hour_aggregation :
    (∀ (fname : String) (hist : List (Nat × StationInfo)) (t : Nat)
        (v : GustValues) (vs : List GustValues),
      (makeGRecord fname hist t (v :: vs)).direction = (pyMax v vs).direction
      ∧ (makeGRecord fname hist t (v :: vs)).speed = (pyMax v vs).speed
      ∧ ∃ l₁ l₂, v :: vs = l₁ ++ pyMax v vs :: l₂
          ∧ (∀ e ∈ l₁, gustKey e < gustKey (pyMax v vs))
          ∧ (∀ e ∈ v :: vs, gustKey e ≤ gustKey (pyMax v vs)))
    ∧ (∀ (fname : String) (hist : List (Nat × StationInfo)) (t : Nat),
      makeGRecord fname hist t [] =
        { source := "Observations:Recent:" ++ fname
          info := stationParams t hist
          timestamp := t
          direction := none
          speed := none })
    ∧ (∀ (cfg : Retention) (fname : String) (hist : List (Nat × StationInfo))
        (rows : List GustRow) (hv : List GustValues),
      (gustLoop cfg fname hist rows hv).1.map (fun g => g.timestamp) =
        (rows.filter (fun r => !skipTs cfg (r.time + 60) &&
          decide (r.time % 60 = 0))).map (fun r => r.time)) := by
  refine ⟨?_, ?_, ?_⟩
  · intro fname hist t v vs
    exact ⟨rfl, rfl, pyMax_first_max vs v⟩
  · intro fname hist t
    rfl
  · intro cfg fname hist rows
    induction rows with
    | nil => intro hv; rfl
    | cons r rest ih =>
      intro hv
      by_cases hskip : skipTs cfg (r.time + 60) = true
      · simp only [gustLoop, hskip, if_true, List.filter_cons, Bool.not_true,
          Bool.false_and]
        exact ih hv
      · have hskip' : skipTs cfg (r.time + 60) = false :=
          Bool.not_eq_true _ ▸ hskip
        by_cases hmin : r.time % 60 = 0
        · simp only [gustLoop, hskip', Bool.false_eq_true, if_false, hmin,
            if_true, List.filter_cons, Bool.not_false, Bool.true_and,
            decide_eq_true_eq]
          simp only [List.map_cons]
          rw [← ih []]
          rfl
        · simp only [gustLoop, hskip', Bool.false_eq_true, if_false, hmin,
            if_false, List.filter_cons, Bool.not_false, Bool.true_and,
            decide_eq_true_eq]
          exact ih _

/-- Witness for C5: in a three-sample group the maximal sample (speed 7)
supplies the emitted values; an empty group emits the null record; one
retained top-of-hour row emits exactly one record. -/
theorem gust_hour_aggregation_witness :
    (makeGRecord "f" [] 60
        [⟨some 10, some 3⟩, ⟨some 20, some 7⟩, ⟨some 30, some 5⟩]).speed =
      (pyMax ⟨some 10, some 3⟩ [⟨some 20, some 7⟩, ⟨some 30, some 5⟩]).speed
    ∧ pyMax ⟨some 10, some 3⟩ [⟨some 20, some 7⟩, ⟨some 30, some 5⟩] =
        ⟨some 20, some 7⟩
    ∧ makeGRecord "f" [] 60 [] =
        { source := "Observations:Recent:f", info := none, timestamp := 60,
          direction := none, speed := none }
    ∧ (gustLoop ⟨0, none⟩ "f" []
        [⟨10, "1", 1, "2", 2⟩, ⟨60, "3", 3, "0", 0⟩] []).1.map
          (fun g => g.timestamp) = [60] :=
  ⟨(gust_hour_aggregation.1 "f" [] 60 ⟨some 10, some 3⟩
      [⟨some 20, some 7⟩, ⟨some 30, some 5⟩]).2.1,
   by decide,
   gust_hour_aggregation.2.1 "f" [] 60,
   by
    rw [gust_hour_aggregation.2.2 ⟨0, none⟩ "f" []
      [⟨10, "1", 1, "2", 2⟩, ⟨60, "3", 3, "0", 0⟩] []]
    decide⟩

/-- **C10**: a 10-minute sample joins its hour group only when its gust speed
is non-null and non-zero (Python truthiness); consequently an hour whose
samples all carry gust speed exactly `0` emits its record with null gust
speed and direction rather than `0`. -/
theorem gust_zero_speed_excluded :
    (∀ (cfg : Retention) (fname : String) (hist : List (Nat × StationInfo))
        (r : GustRow) (rest : List GustRow) (hv : List GustValues),
      skipTs cfg (r.time + 60) = false → r.time % 60 ≠ 0 →
      gustLoop cfg fname hist (r :: rest) hv =
        gustLoop cfg fname hist rest
          (if (gustValues r).speed ≠ none ∧ (gustValues r).speed ≠ some 0
           then hv ++ [gustValues r] else hv))
    ∧ (∀ (cfg : Retention) (fname : String) (hist : List (Nat × StationInfo))
        (rows : List GustRow),
      (∀ r ∈ rows, skipTs cfg (r.time + 60) = false) →
      (∀ r ∈ rows, (gustValues r).speed = some 0) →
      (gustLoop cfg fname hist rows []).1 =
        (rows.filter (fun r => decide (r.time % 60 = 0))).map
          (fun r =>
            { source := "Observations:Recent:" ++ fname
              info := stationParams r.time hist
              timestamp := r.time
              direction := none
              speed := none })) := by
  constructor
  · intro cfg fname hist r rest hv hskip hmin
    simp only [gustLoop, hskip, Bool.false_eq_true, if_false, hmin, if_neg]
    by_cases h : (gustValues r).speed ≠ none ∧ (gustValues r).speed ≠ some 0
    · rw [if_pos ((pyTruthy_iff _).mpr h), if_pos h]
    · rw [if_neg (fun hc => h ((pyTruthy_iff _).mp hc)), if_neg h]
  · intro cfg fname hist rows
    induction rows with
    | nil => intro _ _; rfl
    | cons r rest ih =>
      intro hskip hzero
      have hs : skipTs cfg (r.time + 60) = false :=
        hskip r (List.mem_cons_self _ _)
      have hz : (gustValues r).speed = some 0 :=
        hzero r (List.mem_cons_self _ _)
      have hnt : pyTruthy (gustValues r).speed = false := by
        rw [hz]
        simp [pyTruthy]
      have ih' := ih (fun x hx => hskip x (List.mem_cons_of_mem _ hx))
        (fun x hx => hzero x (List.mem_cons_of_mem _ hx))
      by_cases hmin : r.time % 60 = 0
      · simp only [gustLoop, hs, Bool.false_eq_true, if_false, hnt, hmin,
          if_true, List.filter_cons, decide_eq_true_eq, List.map_cons]
        rw [← ih']
        rfl
      · simp only [gustLoop, hs, Bool.false_eq_true, if_false, hnt, hmin,
          if_false, List.filter_cons, decide_eq_true_eq]
        exact ih'

/-- Witness for C10: a skipped-nothing single-sample hour with gust speed `0`
is excluded from the group, and an hour of all-zero speeds emits the null
record. -/
theorem gust_zero_speed_excluded_witness :
    gustLoop ⟨0, none⟩ "f" [] [⟨70, "10", 10, "0", 0⟩] [] =
      gustLoop ⟨0, none⟩ "f" [] []
        (if (gustValues ⟨70, "10", 10, "0", 0⟩).speed ≠ none ∧
            (gustValues ⟨70, "10", 10, "0", 0⟩).speed ≠ some 0
         then [] ++ [gustValues ⟨70, "10", 10, "0", 0⟩] else [])
    ∧ (gustLoop ⟨0, none⟩ "f" [] [⟨60, "20", 20, "0", 0⟩] []).1 =
      [{ source := "Observations:Recent:f"
         info := none
         timestamp := 60
         direction := none
         speed := none }] :=
  ⟨(gust_zero_speed_excluded.1 ⟨0, none⟩ "f" [] ⟨70, "10", 10, "0", 0⟩ [] []
      (by decide) (by decide)),
   by
    rw [gust_zero_speed_excluded.2 ⟨0, none⟩ "f" [] [⟨60, "20", 20, "0", 0⟩]
      (by decide) (by decide)]
    rfl⟩

/-- **C6** (amended): a historical file whose last data row ends a partial
group at minute `:50` flushes that group as an extra record labelled with the
last row's timestamp plus ten minutes — which is the next top-of-hour — while
a recent file emits no record for the trailing partial group. -/
theorem gust_trailing_partial_flush (cfg : Retention) (fname : String)
    (hist : List (Nat × StationInfo)) (first : GustRow) (rest : List GustRow)
    (lastRow : GustRow) (hlast : rest.getLast? = some lastRow)
    (h50 : lastRow.time % 60 = 50) :
    gustParseReader ObsType.historical cfg fname hist (first :: rest) =
      (gustLoop cfg fname hist rest []).1 ++
        [makeGRecord fname hist (lastRow.time + 10)
          (gustLoop cfg fname hist rest []).2]
    ∧ gustParseReader ObsType.recent cfg fname hist (first :: rest) =
      (gustLoop cfg fname hist rest []).1 := by
  constructor
  · simp only [gustParseReader, hlast]
    rw [if_pos (And.intro trivial h50)]
  · simp only [gustParseReader, hlast]
    rw [if_neg]
    rintro ⟨h, -⟩
    exact ObsType.noConfusion h

/-- Witness for C6 (amended): a file ending at minute 110 (`1:50`) flushes at
120 under `historical` and not at all under `recent`. -/
theorem gust_trailing_partial_flush_witness :
    gustParseReader ObsType.historical ⟨0, none⟩ "f" []
        [⟨0, "0", 0, "0", 0⟩, ⟨110, "20", 20, "5", 5⟩] =
      (gustLoop ⟨0, none⟩ "f" [] [⟨110, "20", 20, "5", 5⟩] []).1 ++
        [makeGRecord "f" [] (110 + 10)
          (gustLoop ⟨0, none⟩ "f" [] [⟨110, "20", 20, "5", 5⟩] []).2]
    ∧ gustParseReader ObsType.recent ⟨0, none⟩ "f" []
        [⟨0, "0", 0, "0", 0⟩, ⟨110, "20", 20, "5", 5⟩] =
      (gustLoop ⟨0, none⟩ "f" [] [⟨110, "20", 20, "5", 5⟩] []).1 :=
  gust_trailing_partial_flush ⟨0, none⟩ "f" [] ⟨0, "0", 0, "0", 0⟩
    [⟨110, "20", 20, "5", 5⟩] ⟨110, "20", 20, "5", 5⟩ (by rfl) (by decide)

/-- Counterexample to **C6** as stated: for a historical file whose last
sample is at minute 110 (`1:50`), the next top-of-hour is minute 120
(`2:00`); the claimed label "next top-of-hour + 10 minutes" would be minute
130 (`2:10`), but the code emits the flushed record at minute 120. -/
theorem gust_trailing_label_counterexample :
    (gustParseReader ObsType.historical ⟨0, none⟩ "f" []
        [⟨0, "0", 0, "0", 0⟩, ⟨110, "20", 20, "5", 5⟩]).map
      (fun g => g.timestamp) = [120]
    ∧ 110 + (60 - 110 % 60) = 120
    ∧ (120 : Nat) ≠ 110 + (60 - 110 % 60) + 10 := by
  refine ⟨by decide, by decide, by decide⟩

theorem pollCandidate_some (pUrls lUrls : List String) (u : String) (t : QTask)
    (h : pollCandidate pUrls lUrls u = some t) :
    t.url = u ∧ u ∉ pUrls ∧ u ∉ lUrls := by
  unfold pollCandidate at h
  split at h
  · exact absurd h (by simp)
  · rename_i hcond
    push_neg at hcond
    cases hgp : getParser (basename u) with
    | none => rw [hgp] at h; exact absurd h (by simp)
    | some p =>
      rw [hgp, Option.map_some'] at h
      have ht := Option.some.inj h
      subst ht
      exact ⟨rfl, hcond.1, hcond.2⟩

theorem pollCandidate_isSome_not_mem (pUrls lUrls : List String) (u : String)
    (h : (pollCandidate pUrls lUrls u).isSome = true) :
    u ∉ pUrls ∧ u ∉ lUrls := by
  cases hc : pollCandidate pUrls lUrls u with
  | none => rw [hc] at h; exact absurd h (by simp)
  | some t => exact (pollCandidate_some pUrls lUrls u t hc).2

theorem pollLoop_ok_eq (pUrls lUrls : List String) :
    ∀ (files : List String) (acc res : List QTask),
      pollLoop pUrls lUrls files acc = Except.ok res →
      res = acc ++ files.filterMap (pollCandidate pUrls lUrls)
  | [], acc, res, h => by
    simp only [pollLoop] at h
    obtain rfl := Except.ok.inj h
    simp
  | u :: rest, acc, res, h => by
    by_cases hp : u ∈ pUrls
    · simp only [pollLoop, if_pos hp] at h
      rw [pollLoop_ok_eq pUrls lUrls rest acc res h, List.filterMap_cons,
        pollCandidate, if_pos (Or.inl hp)]
    · by_cases hl : u ∈ lUrls
      · simp only [pollLoop, if_neg hp, if_pos hl] at h
        rw [pollLoop_ok_eq pUrls lUrls rest acc res h, List.filterMap_cons,
          pollCandidate, if_pos (Or.inr hl)]
      · cases hgp : getParser (basename u) with
        | none =>
          simp only [pollLoop, if_neg hp, if_neg hl, hgp] at h
          exact absurd h (by simp)
        | some p =>
          simp only [pollLoop, if_neg hp, if_neg hl, hgp] at h
          rw [pollLoop_ok_eq pUrls lUrls rest (acc ++ [⟨u, parserPriority p⟩])
            res h, List.filterMap_cons, pollCandidate,
            if_neg (not_or.mpr ⟨hp, hl⟩), hgp, Option.map_some']
          simp

theorem pollStep_ok_eq (now : Nat) (files : List String) (s s' : QState)
    (h : pollStep now files s = Except.ok s') :
    s'.locks = expireLocks now s.locks
    ∧ s'.pending = s.pending ++
        files.filterMap (pollCandidate (s.pending.map (fun t => t.url))
          ((expireLocks now s.locks).map (fun l => l.1))) := by
  simp only [pollStep] at h
  cases hloop : pollLoop (s.pending.map (fun t => t.url))
      ((expireLocks now s.locks).map (fun l => l.1)) files [] with
  | error e => rw [hloop] at h; exact absurd h (by simp)
  | ok newTasks =>
    rw [hloop] at h
    obtain rfl := Except.ok.inj h
    have hnew := pollLoop_ok_eq _ _ files [] newTasks hloop
    rw [List.nil_append] at hnew
    subst hnew
    exact ⟨rfl, rfl⟩

theorem filterMap_pollCandidate_urls (pUrls lUrls : List String) :
    ∀ files : List String,
      (files.filterMap (pollCandidate pUrls lUrls)).map (fun t => t.url) =
        files.filter (fun u => (pollCandidate pUrls lUrls u).isSome)
  | [] => rfl
  | u :: rest => by
    rw [List.filterMap_cons, List.filter_cons]
    cases hc : pollCandidate pUrls lUrls u with
    | none => simp [hc, filterMap_pollCandidate_urls pUrls lUrls rest]
    | some t =>
      have ht := (pollCandidate_some pUrls lUrls u t hc).1
      simp [hc, ht, filterMap_pollCandidate_urls pUrls lUrls rest]

theorem atMostOnePerUrl_poll (now : Nat) (files : List String) (s s' : QState)
    (hfiles : files.Nodup) (h : pollStep now files s = Except.ok s')
    (hinv : atMostOnePerUrl s) : atMostOnePerUrl s' := by
  obtain ⟨hlocks, hpend⟩ := pollStep_ok_eq now files s s' h
  obtain ⟨hA, hC, hAC⟩ := List.nodup_append.mp hinv
  have hCk : ((expireLocks now s.locks).map (fun l => l.1)).Sublist
      (s.locks.map (fun l => l.1)) :=
    (List.filter_sublist s.locks).map _
  have hCknd : ((expireLocks now s.locks).map (fun l => l.1)).Nodup :=
    hCk.nodup hC
  have hurlmap := filterMap_pollCandidate_urls
    (s.pending.map (fun t => t.url))
    ((expireLocks now s.locks).map (fun l => l.1)) files
  have hBnd : ((files.filterMap (pollCandidate (s.pending.map (fun t => t.url))
      ((expireLocks now s.locks).map (fun l => l.1)))).map
        (fun t => t.url)).Nodup := by
    rw [hurlmap]
    exact hfiles.filter _
  have hBmem : ∀ u ∈ (files.filterMap (pollCandidate
      (s.pending.map (fun t => t.url))
      ((expireLocks now s.locks).map (fun l => l.1)))).map (fun t => t.url),
      u ∉ s.pending.map (fun t => t.url) ∧
      u ∉ (expireLocks now s.locks).map (fun l => l.1) := by
    intro u hu
    rw [hurlmap, List.mem_filter] at hu
    exact pollCandidate_isSome_not_mem _ _ u hu.2
  unfold atMostOnePerUrl stateUrls
  rw [hlocks, hpend, List.map_append]
  rw [List.nodup_append]
  refine ⟨List.nodup_append.mpr ⟨hA, hBnd, ?_⟩, hCknd, ?_⟩
  · intro u huA huB
    exact (hBmem u huB).1 huA
  · intro u hu hulocks
    rcases List.mem_append.mp hu with huA | huB
    · exact hAC huA (hCk.subset hulocks)
    · exact (hBmem u huB).2 hulocks

theorem atMostOnePerUrl_start (now : Nat) (s : QState) (t : QTask)
    (ht : t ∈ s.pending) (hinv : atMostOnePerUrl s) :
    atMostOnePerUrl ⟨s.pending.erase t, (t.url, now) :: s.locks⟩ := by
  obtain ⟨hA, hC, hAC⟩ := List.nodup_append.mp hinv
  have hpnd : s.pending.Nodup := hA.of_map
  have hesub : (s.pending.erase t).Sublist s.pending := List.erase_sublist t _
  have hAe : ((s.pending.erase t).map (fun x => x.url)).Nodup :=
    (hesub.map _).nodup hA
  have hmemmap : ∀ u ∈ (s.pending.erase t).map (fun x => x.url),
      u ∈ s.pending.map (fun x => x.url) :=
    fun u hu => (hesub.map _).subset hu
  have hturl : ∀ u ∈ (s.pending.erase t).map (fun x => x.url), u ≠ t.url := by
    intro u hu hequ
    obtain ⟨t', ht', rfl⟩ := List.mem_map.mp hu
    have hne : t' ≠ t := ((hpnd.mem_erase_iff).mp ht').1
    have ht'mem : t' ∈ s.pending := ((hpnd.mem_erase_iff).mp ht').2
    exact hne (List.inj_on_of_nodup_map hA ht'mem ht hequ)
  unfold atMostOnePerUrl stateUrls
  rw [List.nodup_append]
  refine ⟨hAe, ?_, ?_⟩
  · rw [List.map_cons, List.nodup_cons]
    exact ⟨fun hmem => hAC (List.mem_map_of_mem _ ht) hmem, hC⟩
  · intro u hu humem
    rcases List.mem_cons.mp humem with hequ | hulocks
    · exact hturl u hu hequ
    · exact hAC (hmemmap u hu) hulocks

theorem atMostOnePerUrl_finish (s : QState) (url : String)
    (hinv : atMostOnePerUrl s) :
    atMostOnePerUrl
      ⟨s.pending, s.locks.filter (fun l => decide (l.1 ≠ url))⟩ := by
  have hsub : (stateUrls
      ⟨s.pending, s.locks.filter (fun l => decide (l.1 ≠ url))⟩).Sublist
      (stateUrls s) :=
    ((List.filter_sublist s.locks).map _).append_left _
  exact hsub.nodup hinv

theorem atMostOnePerUrl_step {now : Nat} {s s' : QState} (h : QStep now s s')
    (hinv : atMostOnePerUrl s) : atMostOnePerUrl s' :=
  match h with
  | QStep.poll _ files _ _ hnd hok => atMostOnePerUrl_poll _ files _ _ hnd hok hinv
  | QStep.start _ _ t ht => atMostOnePerUrl_start _ _ t ht hinv
  | QStep.finish _ _ url => atMostOnePerUrl_finish _ url hinv

theorem reachable_atMostOne : ∀ s : QState, QReachable s → atMostOnePerUrl s := by
  intro s h
  induction h with
  | init => simp [atMostOnePerUrl, stateUrls]
  | step now s₀ s₁ hr hstep ih => exact atMostOnePerUrl_step hstep ih

/-- **C9**: in every poll step with enqueuing enabled, locks older than the
fixed 1800-second timeout are expired first; a changed candidate URL that is
pending or still actively locked enqueues nothing, while a candidate that is
neither pending nor locked is enqueued with its resolved parser's priority;
and starting from the empty queue every reachable queue/lock state has at
most one task per URL queued or running. -/
theorem poll_dedup_and_lock_invariant :
    (∀ (now : Nat) (files : List String) (s s' : QState),
      pollStep now files s = Except.ok s' →
      s'.locks = expireLocks now s.locks
      ∧ (∀ url ∈ files,
          (url ∈ s.pending.map (fun t => t.url) ∨
            url ∈ (expireLocks now s.locks).map (fun l => l.1)) →
          s'.pending.filter (fun t => decide (t.url = url)) =
            s.pending.filter (fun t => decide (t.url = url)))
      ∧ (∀ url ∈ files,
          url ∉ s.pending.map (fun t => t.url) →
          url ∉ (expireLocks now s.locks).map (fun l => l.1) →
          ∀ P, getParser (basename url) = some P →
            QTask.mk url (parserPriority P) ∈ s'.pending))
    ∧ (∀ s : QState, QReachable s → atMostOnePerUrl s) := by
  refine ⟨?_, reachable_atMostOne⟩
  intro now files s s' h
  obtain ⟨hlocks, hpend⟩ := pollStep_ok_eq now files s s' h
  refine ⟨hlocks, ?_, ?_⟩
  · intro url hmem hin
    rw [hpend, List.filter_append]
    have hnil : (files.filterMap (pollCandidate
        (s.pending.map (fun t => t.url))
        ((expireLocks now s.locks).map (fun l => l.1)))).filter
          (fun t => decide (t.url = url)) = [] := by
      rw [List.filter_eq_nil_iff]
      intro t htmem
      obtain ⟨u, hu, hcand⟩ := List.mem_filterMap.mp htmem
      obtain ⟨hturl, hnp, hnl⟩ := pollCandidate_some _ _ u t hcand
      simp only [decide_eq_true_eq]
      intro hequrl
      rw [hturl] at hequrl
      subst hequrl
      rcases hin with hcase | hcase
      · exact hnp hcase
      · exact hnl hcase
    rw [hnil, List.append_nil]
  · intro url hmem hnp hnl P hP
    rw [hpend]
    refine List.mem_append.mpr (Or.inr ?_)
    refine List.mem_filterMap.mpr ⟨url, hmem, ?_⟩
    rw [pollCandidate, if_neg (not_or.mpr ⟨hnp, hnl⟩), hP, Option.map_some']

/-- Witness for C9: a lock from second 100 has expired by second 2000 and is
removed; the fresh candidate resolves to the wind parser (priority 10) and is
enqueued; the resulting state, reached from the empty queue by one poll,
satisfies the at-most-one-task-per-URL invariant. -/
theorem poll_dedup_and_lock_invariant_witness :
    pollStep 2000 ["stundenwerte_FF_01_akt.zip"] ⟨[], [("old", 100)]⟩ =
      Except.ok ⟨[⟨"stundenwerte_FF_01_akt.zip", 10⟩], []⟩
    ∧ (⟨[⟨"stundenwerte_FF_01_akt.zip", 10⟩], []⟩ : QState).locks =
        expireLocks 2000 [("old", 100)]
    ∧ QTask.mk "stundenwerte_FF_01_akt.zip" (parserPriority ParserCls.wind) ∈
        (⟨[⟨"stundenwerte_FF_01_akt.zip", 10⟩], []⟩ : QState).pending
    ∧ atMostOnePerUrl ⟨[⟨"stundenwerte_FF_01_akt.zip", 10⟩], []⟩ := by
  have hok : pollStep 2000 ["stundenwerte_FF_01_akt.zip"]
      ⟨[], [("old", 100)]⟩ =
      Except.ok ⟨[⟨"stundenwerte_FF_01_akt.zip", 10⟩], []⟩ := by decide
  have hok0 : pollStep 0 ["stundenwerte_FF_01_akt.zip"] ⟨[], []⟩ =
      Except.ok ⟨[⟨"stundenwerte_FF_01_akt.zip", 10⟩], []⟩ := by decide
  refine ⟨hok, (poll_dedup_and_lock_invariant.1 2000 _ _ _ hok).1, ?_, ?_⟩
  · exact (poll_dedup_and_lock_invariant.1 2000 _ _ _ hok).2.2
      "stundenwerte_FF_01_akt.zip" (by decide) (by decide) (by decide)
      ParserCls.wind (by decide)
  · exact poll_dedup_and_lock_invariant.2
      ⟨[⟨"stundenwerte_FF_01_akt.zip", 10⟩], []⟩
      (QReachable.step 0 ⟨[], []⟩ _ QReachable.init
        (QStep.poll 0 ["stundenwerte_FF_01_akt.zip"] ⟨[], []⟩ _
          (by decide) hok0))

end Brightsky
